import Mathlib

/-!
Verification development for the dongo ODM (query translation, path
addressing, deferred bulk writes and reference resolution).

The Python sources are shallowly embedded below:

* dictionaries (`dict`) become insertion-ordered association lists
  (`Doc`), with `dinsert` modelling `d[k] = v` (update-in-place keeps
  the key's position; a fresh key is appended) and `dlookup` modelling
  `d[k]` / `k in d`;
* JSON-ish document values become the inductive `DVal`;
* raised Python exceptions become the `PyErr` error type, and fallible
  code returns `Except PyErr _` (or threads an explicit state pair when
  the caller's state survives the raise);
* the external pymongo driver is out of scope: functions that consume a
  driver response take that response as an explicit argument.
-/

/-- Document values: the JSON-ish data stored in entity documents,
queries and update descriptors. -/
inductive DVal where
  | str : String → DVal
  | int : Int → DVal
  | bool : Bool → DVal
  | null : DVal
  | doc : List (String × DVal) → DVal
  | arr : List DVal → DVal

/-- A Python `dict` with string keys, as an insertion-ordered
association list. -/
abbrev Doc := List (String × DVal)

/-- The Python exceptions the embedded code can raise.
`dongoResultError` and `dongoDerefError` are dongo's own exception
classes; the rest are Python builtins. -/
inductive PyErr where
  | dongoResultError : PyErr
  | dongoDerefError : PyErr
  | typeError : PyErr
  | valueError : String → PyErr
  | indexError : PyErr
  | keyError : PyErr
  | attributeError : PyErr
deriving DecidableEq, Repr

/-- `d[k]` as a read: the value stored at key `k`, if present. -/
def dlookup (d : Doc) (k : String) : Option DVal :=
  match d with
  | [] => none
  | (k', v) :: rest => if k' = k then some v else dlookup rest k

/-- `k in d` (Python dict membership). -/
def hasKeyD (d : Doc) (k : String) : Bool :=
  (dlookup d k).isSome

/-- `d[k] = v` on a Python dict: overwrite in place if the key exists
(keeping its position), otherwise append the new pair. -/
def dinsert (d : Doc) (k : String) (v : DVal) : Doc :=
  match d with
  | [] => [(k, v)]
  | (k', v') :: rest =>
      if k' = k then (k, v) :: rest else (k', v') :: dinsert rest k v

/-- Does the character list start with `"__"`? -/
def startsWithDD (l : List Char) : Bool :=
  match l with
  | '_' :: '_' :: _ => true
  | _ => false

/-- `'__' in s` (Python substring test) over the characters of `s`. -/
def hasDD (l : List Char) : Bool :=
  match l with
  | [] => false
  | _ :: rest => startsWithDD l || hasDD rest

/-- `s.replace('__', '.')`: replace non-overlapping occurrences of
`"__"` left to right by `'.'`. -/
def replaceDD (l : List Char) : List Char :=
  match l with
  | '_' :: '_' :: rest => '.' :: replaceDD rest
  | c :: rest => c :: replaceDD rest
  | [] => []

/-- `'.' in s` over the characters of `s`. -/
def hasDot (l : List Char) : Bool :=
  match l with
  | [] => false
  | c :: rest => c == '.' || hasDot rest

/-- Accumulator loop for `s.split('.')`. -/
def splitDotAux (l : List Char) (acc : List Char) : List (List Char) :=
  match l with
  | [] => [acc.reverse]
  | c :: rest =>
      if c = '.' then acc.reverse :: splitDotAux rest []
      else splitDotAux rest (c :: acc)

/-- `s.split('.')` (Python string split on the dot separator). -/
def splitDot (l : List Char) : List String :=
  (splitDotAux l []).map (fun cs => ⟨cs⟩)

/-- Boolean suffix test on character lists. -/
def isSuffixL (s l : List Char) : Bool :=
  s == l.drop (l.length - s.length)

/-- The closed comparison-operator vocabulary of `RE_COMP_EXPR`, in the
alternation order of the source regex
`^(.*)(?:__(gte|lte|gt|lt|eq|ne|nin|in|regex|exists))$`. -/
def OPS : List String :=
  ["gte", "lte", "gt", "lt", "eq", "ne", "nin", "in", "regex", "exists"]

/-- The two-character separator `"__"`. -/
def ddChars : List Char := ['_', '_']

/-- `RE_COMP_EXPR.match(term)`: the anchored match
`^(.*)(?:__(op))$` against the term's characters, returning the
captured groups `(prefix, op)` on success.  Python regex details
mirrored here: `$` also matches just before one trailing newline
(hence the initial strip), and `.` does not match a newline (hence the
newline check on the captured prefix).  At most one operator of `OPS`
can match, because no `"__" ++ op` is a proper suffix of another, so
scanning `OPS` in alternation order is equivalent to the engine's
greedy backtracking. -/
def reCompMatch (t : List Char) : Option (List Char × String) :=
  let s := if t.getLast? = some '\n' then t.dropLast else t
  match OPS.find? (fun op => isSuffixL (ddChars ++ op.toList) s) with
  | none => none
  | some op =>
      let pfx := s.take (s.length - (ddChars ++ op.toList).length)
      if pfx.contains '\n' then none else some (pfx, op)

/-- `DongoCollection._build_query_from_term(term, val)`: a term with no
`"__"` is returned unchanged; otherwise the operator-suffix grammar is
applied, the remaining separators become dots, and a recognized
operator wraps the value as `{"$op": val}`. -/
def build_query_from_term (term : String) (val : DVal) : String × DVal :=
  if hasDD term.toList = false then (term, val)
  else
    match reCompMatch term.toList with
    | some (pfx, op) =>
        (String.mk (replaceDD pfx), DVal.doc [("$" ++ op, val)])
    | none => (String.mk (replaceDD term.toList), val)

/-- The loop of `DongoCollection.__getitem__` after the first segment:
descend with `val = val[keys[0]]` while more than one key remains, then
return `val[keys[-1]]`.  Subscripting a non-dict raises `TypeError`, a
missing key raises `KeyError`, and `keys[-1]` on an empty list raises
`IndexError`. -/
def getWalk (v : DVal) (keys : List String) : Except PyErr DVal :=
  match v, keys with
  | DVal.doc d, [k] =>
      match dlookup d k with
      | some u => .ok u
      | none => .error .keyError
  | _, [_] => .error .typeError
  | DVal.doc d, k :: rest =>
      match dlookup d k with
      | none => .error .keyError
      | some u => getWalk u rest
  | _, _ :: _ => .error .typeError
  | _, [] => .error .indexError

/-- `DongoCollection.__getitem__(index)` on the in-memory `_data`. -/
def getItem (data : Doc) (index : String) : Except PyErr DVal :=
  if hasDot index.toList = false then
    match dlookup data index with
    | some v => .ok v
    | none => .error .keyError
  else
    match splitDot index.toList with
    | [] => .error .indexError
    | k0 :: rest =>
        match dlookup data k0 with
        | none => .error .keyError
        | some v => getWalk v rest

/-- The loop of `DongoCollection._set_nested` after the first segment:
descend while more than one key remains, then assign
`val[keys[-1]] = value` (a `TypeError` if `val` is not a dict). -/
def setWalk (v : DVal) (keys : List String) (value : DVal) :
    Except PyErr DVal :=
  match v, keys with
  | DVal.doc d, [k] => .ok (DVal.doc (dinsert d k value))
  | _, [_] => .error .typeError
  | DVal.doc d, k :: rest =>
      match dlookup d k with
      | none => .error .keyError
      | some u =>
          match setWalk u rest value with
          | .error e => .error e
          | .ok u' => .ok (DVal.doc (dinsert d k u'))
  | _, _ :: _ => .error .typeError
  | _, [] => .error .indexError

/-- `DongoCollection._set_nested(index, value)`: in-memory path
assignment; intermediate segments must already exist (this layer does
not create them). -/
def setNested (data : Doc) (index : String) (value : DVal) :
    Except PyErr Doc :=
  if hasDot index.toList = false then .ok (dinsert data index value)
  else
    match splitDot index.toList with
    | [] => .error .indexError
    | k0 :: rest =>
        match dlookup data k0 with
        | none => .error .keyError
        | some v =>
            match setWalk v rest value with
            | .error e => .error e
            | .ok v' => .ok (dinsert data k0 v')

/-- The loop of `DongoCollection.__contains__`: while keys remain,
return `False` if the current value is not a dict or lacks the next
key, else descend. -/
def cwalk (v : DVal) (keys : List String) : Bool :=
  match v, keys with
  | _, [] => true
  | DVal.doc d, k :: rest =>
      match dlookup d k with
      | none => false
      | some u => cwalk u rest
  | _, _ :: _ => false

/-- `DongoCollection.__contains__(field)` on the in-memory `_data`. -/
def containsField (data : Doc) (field : String) : Bool :=
  if hasDot field.toList = false then hasKeyD data field
  else cwalk (DVal.doc data) (splitDot field.toList)

/-- Reference walk used only in theorem statements: the value reached
by following the segments through nested dicts, `none` as soon as a
segment is missing or an intermediate value is not a dict. -/
def getPath (v : DVal) (keys : List String) : Option DVal :=
  match v, keys with
  | v, [] => some v
  | DVal.doc d, k :: rest => (dlookup d k).bind (fun u => getPath u rest)
  | _, _ :: _ => none

/-- `DongoCollection._translate_dunder_dict(kwargs)`: the source
computes `key.replace('__', '.')` but discards the result (strings are
immutable), then stores the value under the original key. -/
def translate_dunder_dict (kwargs : Doc) : Doc :=
  kwargs.foldl
    (fun dct kv =>
      let _replaced :=
        if hasDD kv.1.toList then String.mk (replaceDD kv.1.toList) else kv.1
      dinsert dct kv.1 kv.2)
    []

/-- The `for key, val in dct.items(): self._set_nested(key, val)` loop
of `DongoCollection.set`, stopping at the first raised exception but
keeping the assignments already made. -/
def foldSetNested (data : Doc) (dct : Doc) : Doc × Option PyErr :=
  match dct with
  | [] => (data, none)
  | (k, v) :: rest =>
      match setNested data k v with
      | .error e => (data, some e)
      | .ok d' => foldSetNested d' rest

/-- `DongoCollection.set(**kwargs)`: translate the keys (a no-op, see
`translate_dunder_dict`), mirror each field into the in-memory data,
then issue `update({'_id': self['_id']}, {'$set': dct})`.  Returns the
in-memory data after the call together with the `(selector, update)`
pair handed to the driver (or the raised error). -/
def collSet (data : Doc) (kwargs : Doc) : Doc × Except PyErr (Doc × Doc) :=
  let dct := translate_dunder_dict kwargs
  match foldSetNested data dct with
  | (d', some e) => (d', .error e)
  | (d', none) =>
      match getItem d' "_id" with
      | .error e => (d', .error e)
      | .ok idv => (d', .ok ([("_id", idv)], [("$set", DVal.doc dct)]))

/-- A `QuerySet`: the collection it belongs to (identified by its
name), the built query document and the separated option set. -/
structure QS where
  klass : String
  query : Doc
  opts : Doc

/-- `QuerySet.__add__(self, other)`: append `other.query` to the
top-level `$or` (checked first) or `$and` list of `self.query`,
mutating `self` in place and returning it; raise
`ValueError('top level must be $and or $or')` if neither key exists.
(Appending to a non-list value would raise `AttributeError`; a missing
key after the membership test cannot happen.) -/
def qsAdd (a b : QS) : Except PyErr QS :=
  if hasKeyD a.query "$or" then
    match dlookup a.query "$or" with
    | some (DVal.arr l) =>
        .ok { a with query := dinsert a.query "$or" (DVal.arr (l ++ [DVal.doc b.query])) }
    | some _ => .error .attributeError
    | none => .error .keyError
  else if hasKeyD a.query "$and" then
    match dlookup a.query "$and" with
    | some (DVal.arr l) =>
        .ok { a with query := dinsert a.query "$and" (DVal.arr (l ++ [DVal.doc b.query])) }
    | some _ => .error .attributeError
    | none => .error .keyError
  else .error (PyErr.valueError ("top level must be $and or $or"))

/-- An entity instance: `klass(data)` wrapping the raw document. -/
structure DInst where
  _data : Doc

/-- `QuerySet.first`, applied to the driver's `find_one` response:
`if not data: return None` — both an absent response and an empty
document are falsy — else wrap the document. -/
def qsFirst (r : Option Doc) : Option DInst :=
  match r with
  | none => none
  | some [] => none
  | some (p :: rest) => some ⟨p :: rest⟩

/-- `QuerySet.first_or_die`: raise `DongoResultError` when `first`
produced nothing (a wrapped instance is always truthy). -/
def qsFirstOrDie (r : Option Doc) : Except PyErr DInst :=
  match qsFirst r with
  | none => .error .dongoResultError
  | some inst => .ok inst

/-- `DongoCollection.get_one`, applied to the materialized list of
documents the filter matched: more than one raises `DongoResultError`;
`results[0]` on an empty list raises `IndexError`. -/
def getOne (results : List Doc) : Except PyErr DInst :=
  if results.length > 1 then .error .dongoResultError
  else
    match results with
    | [] => .error .indexError
    | d :: _ => .ok ⟨d⟩

/-- One deferred driver operation, mirroring the pymongo request
classes `UpdateOne`, `ReplaceOne`, `DeleteOne`, `DeleteMany`. -/
inductive BulkOp where
  | updateOne (filter : Doc) (update : Doc) (upsert : Bool)
  | replaceOne (filter : Doc) (replacement : Doc) (upsert : Bool)
  | deleteOne (filter : Doc)
  | deleteMany (filter : Doc)

/-- `_inst_to_query(instance)`: the target selector `{'_id': ...}` if
the instance data has a primary id, else `{'_uuid': ...}` if it has a
secondary id, else raise `DongoResultError` (never persisted). -/
def instToQuery (data : Doc) : Except PyErr Doc :=
  match dlookup data "_id" with
  | some v => .ok [("_id", v)]
  | none =>
      match dlookup data "_uuid" with
      | some v => .ok [("_uuid", v)]
      | none => .error .dongoResultError

/-- `DongoBulk.update_one(instance, **kwargs)` acting on the pending
op list and the instance's in-memory data: returns the state after the
call (unchanged on a raise) and the appended op or the error. -/
def bulkUpdateOne (ops : List BulkOp) (instData : Doc) (kwargs : Doc) :
    (List BulkOp × Doc) × Except PyErr BulkOp :=
  match instToQuery instData with
  | .error e => ((ops, instData), .error e)
  | .ok q =>
      let upd := BulkOp.updateOne q [("$set", DVal.doc kwargs)] false
      ((ops ++ [upd], instData), .ok upd)

/-- `DongoBulk.inc_one(instance, **kwargs)`: appends an `UpdateOne`
with an `$inc` document; the instance's in-memory data is not
touched. -/
def bulkIncOne (ops : List BulkOp) (instData : Doc) (kwargs : Doc) :
    (List BulkOp × Doc) × Except PyErr BulkOp :=
  match instToQuery instData with
  | .error e => ((ops, instData), .error e)
  | .ok q =>
      let upd := BulkOp.updateOne q [("$inc", DVal.doc kwargs)] false
      ((ops ++ [upd], instData), .ok upd)

/-- `DongoBulk.replace_one(instance, **kwargs)`. -/
def bulkReplaceOne (ops : List BulkOp) (instData : Doc) (kwargs : Doc) :
    (List BulkOp × Doc) × Except PyErr BulkOp :=
  match instToQuery instData with
  | .error e => ((ops, instData), .error e)
  | .ok q =>
      let rep := BulkOp.replaceOne q kwargs false
      ((ops ++ [rep], instData), .ok rep)

/-- `DongoLazyUpdater.__setitem__(attr, val)`: build the selector,
build the `UpdateOne`, mirror the value into the instance's in-memory
data via `_set_nested`, then append the op.  A raise from either step
leaves the pending list unchanged. -/
def lazySetItem (ops : List BulkOp) (instData : Doc) (attr : String)
    (val : DVal) : (List BulkOp × Doc) × Except PyErr BulkOp :=
  match instToQuery instData with
  | .error e => ((ops, instData), .error e)
  | .ok q =>
      let upd := BulkOp.updateOne q [("$set", DVal.doc [(attr, val)])] false
      match setNested instData attr val with
      | .error e => ((ops, instData), .error e)
      | .ok d' => ((ops ++ [upd], d'), .ok upd)

/-- A deferred-write object: a `DongoLazyUpdater` (wrapping one
instance's data) or a `DongoBulk` (wrapping a collection class,
identified by name). -/
inductive WriteObj where
  | lazy (instData : Doc) (ops : List BulkOp)
  | bulk (klass : String) (ops : List BulkOp)

/-- `a + b` on deferred-write objects (`DongoLazyUpdater.__add__` and
`DongoBulk.__add__`).  Returns `(a after, b after, returned object)`.
For `lazy + bulk` the ops move into the bulk (`other.ops.extend`, then
`self.ops = []`) and the bulk is returned; for `bulk + _` the receiver
takes the donor's ops and returns itself.  For `lazy + lazy` the
source executes `bulk = DongoBulk()`, but `DongoBulk.__init__` has a
required positional parameter `klass`, so the call raises `TypeError`
before anything is transferred. -/
def wAdd (a b : WriteObj) : Except PyErr (WriteObj × WriteObj × WriteObj) :=
  match a, b with
  | .lazy d ops, .bulk k bops =>
      .ok (.lazy d [], .bulk k (bops ++ ops), .bulk k (bops ++ ops))
  | .lazy _ _, .lazy _ _ => .error .typeError
  | .bulk k ops, .lazy d lops =>
      .ok (.bulk k (ops ++ lops), .lazy d [], .bulk k (ops ++ lops))
  | .bulk k ops, .bulk k2 bops =>
      .ok (.bulk k (ops ++ bops), .bulk k2 [], .bulk k (ops ++ bops))

/-- An identifier carried by a cross-collection reference: a secondary
(uuid) or primary (object id) identifier. -/
inductive RefId where
  | uuid (v : String)
  | oid (v : String)
deriving DecidableEq, Repr

/-- The raw identifier value of a reference id. -/
def refIdVal : RefId → DVal
  | .uuid v => DVal.str v
  | .oid v => DVal.str v

/-- The field a reference id kind is looked up by. -/
def refIdField : RefId → String
  | .uuid _ => "_uuid"
  | .oid _ => "_id"

/-- A typed reference `{'_dref': <identifier>, '_coll': <name>}`;
`dref` is `none` when the reference lacks an id. -/
structure DRef where
  dref : Option RefId
  coll : String
deriving DecidableEq, Repr

/-- Modelled from the spec: `deref_many` is exported by the package's
`__init__` but its definition is absent from `src/dongo/odm.py`, so
this follows section 4.5 of the spec.  It fails with `DongoDerefError`
if any reference lacks an id, if the references span more than one
distinct collection name (or there are none), or if the common
collection name is not in the registry of known entity types;
otherwise it returns a queryable result set over the matched
collection whose query is one batched `$in` lookup by the common
identifier kind. -/
def derefMany (registry : List String) (refs : List DRef) :
    Except PyErr QS :=
  if refs.any (fun r => r.dref.isNone) then .error .dongoDerefError
  else
    match refs with
    | [] => .error .dongoDerefError
    | r0 :: rest =>
        if rest.all (fun r => r.coll == r0.coll) then
          if registry.contains r0.coll then
            let ids := refs.filterMap (fun r => r.dref)
            let fld :=
              match ids.head? with
              | some i => refIdField i
              | none => "_id"
            .ok { klass := r0.coll,
                  query :=
                    [(fld, DVal.doc [("$in", DVal.arr (ids.map refIdVal))])],
                  opts := [] }
          else .error .dongoDerefError
        else .error .dongoDerefError

theorem dlookup_dinsert_self (d : Doc) (k : String) (v : DVal) :
    dlookup (dinsert d k v) k = some v := by
  induction d with
  | nil => simp [dinsert, dlookup]
  | cons kv rest ih =>
      obtain ⟨k', v'⟩ := kv
      by_cases h : k' = k
      · simp [dinsert, dlookup, h]
      · simp [dinsert, dlookup, h, ih]

theorem dlookup_dinsert_ne (d : Doc) (k : String) (v : DVal) (k' : String)
    (h : k ≠ k') : dlookup (dinsert d k v) k' = dlookup d k' := by
  induction d with
  | nil => simp [dinsert, dlookup, h]
  | cons kv rest ih =>
      obtain ⟨k0, v0⟩ := kv
      by_cases h0 : k0 = k
      · simp [dinsert, dlookup, h0, h]
      · simp [dinsert, dlookup, h0, ih]

theorem setWalk_getWalk (keys : List String) :
    ∀ (v value v' : DVal), setWalk v keys value = .ok v' →
      getWalk v' keys = .ok value := by
  induction keys with
  | nil => intro v value v' h; simp [setWalk] at h
  | cons k rest ih =>
      intro v value v' h
      cases rest with
      | nil =>
          cases v <;> simp [setWalk] at h
          subst h
          simp [getWalk, dlookup_dinsert_self]
      | cons k2 rest2 =>
          cases v <;> simp [setWalk] at h
          rename_i d
          cases hdk : dlookup d k with
          | none => simp [hdk] at h
          | some u =>
              simp [hdk] at h
              cases hsw : setWalk u (k2 :: rest2) value with
              | error e => simp [hsw] at h
              | ok u' =>
                  simp [hsw] at h
                  subst h
                  simp [getWalk, dlookup_dinsert_self]
                  exact ih u value u' hsw

theorem setNested_getItem (data : Doc) (index : String) (value : DVal)
    (d' : Doc) (h : setNested data index value = .ok d') :
    getItem d' index = .ok value := by
  cases hdot : hasDot index.data with
  | false =>
      simp [setNested, hdot] at h
      subst h
      simp [getItem, hdot, dlookup_dinsert_self]
  | true =>
      simp [setNested, hdot] at h
      cases hsp : splitDot index.data with
      | nil => simp [hsp] at h
      | cons k0 rest =>
          simp [hsp] at h
          cases hdk : dlookup data k0 with
          | none => simp [hdk] at h
          | some v =>
              simp [hdk] at h
              cases hsw : setWalk v rest value with
              | error e => simp [hsw] at h
              | ok v' =>
                  simp [hsw] at h
                  subst h
                  simp [getItem, hdot, hsp, dlookup_dinsert_self]
                  exact setWalk_getWalk rest v value v' hsw

theorem splitDotAux_no_dot (l : List Char) :
    ∀ (acc : List Char), hasDot l = false →
      splitDotAux l acc = [acc.reverse ++ l] := by
  induction l with
  | nil => intro acc _; simp [splitDotAux]
  | cons c rest ih =>
      intro acc h
      simp [hasDot] at h
      obtain ⟨hc, hrest⟩ := h
      simp [splitDotAux, hc, ih (c :: acc) hrest]

theorem cwalk_getPath (keys : List String) :
    ∀ (v : DVal), cwalk v keys = (getPath v keys).isSome := by
  induction keys with
  | nil => intro v; simp [cwalk, getPath]
  | cons k rest ih =>
      intro v
      cases v <;> simp [cwalk, getPath]
      rename_i d
      cases hdk : dlookup d k with
      | none => simp
      | some u => simp [ih u]

/-- C7: for every entity whose in-memory data is a mapping and every
field-path string, `DongoCollection.__contains__` is total (the Lean
translation returns a `Bool` for all inputs, with no error outcome in
its type) and it returns `true` exactly when every path segment exists
and every intermediate value along the path is a mapping (`getPath`
reaches a value); in particular it returns `false` whenever a segment
is absent or an intermediate value is not a mapping. -/
theorem c7_contains_never_raises (data : Doc) (field : String) :
    containsField data field =
      (getPath (DVal.doc data) (splitDot field.toList)).isSome := by
  show containsField data field =
    (getPath (DVal.doc data) (splitDot field.data)).isSome
  cases hdot : hasDot field.data with
  | false =>
      have hsp : splitDot field.data = [field] := by
        rw [splitDot, splitDotAux_no_dot field.data [] hdot]
        simp only [List.reverse_nil, List.nil_append, List.map]
      rw [hsp]
      simp [containsField, hdot, getPath, hasKeyD]
  | true =>
      simp [containsField, hdot, cwalk_getPath]

/-- C8: for every entity and dotted path whose intermediate segments
already exist as nested mappings (equivalently: whenever `_set_nested`
succeeds), setting the path to `value` and then reading the same path
with `__getitem__` returns exactly `value`. -/
theorem c8_set_get_roundtrip (data : Doc) (index : String) (value : DVal)
    (d' : Doc) (h : setNested data index value = Except.ok d') :
    getItem d' index = Except.ok value :=
  setNested_getItem data index value d' h

theorem c8_witness :
    getItem [("a", DVal.doc [("b", DVal.int 7)])] "a.b" =
      Except.ok (DVal.int 7) :=
  c8_set_get_roundtrip [("a", DVal.doc [("b", DVal.int 0)])] "a.b"
    (DVal.int 7) [("a", DVal.doc [("b", DVal.int 7)])] rfl

/-- C3: composing QuerySets with `+` appends the other query as a new
child of the receiver's typed `$or` root (checked first) or `$and`
root, returning the updated receiver (the source mutates `self.query`
in place and returns `self`, so the result is `a` itself with only its
query extended); with neither root present it fails with the error the
spec calls `CompositionError` — in the source, the raised
`ValueError('top level must be $and or $or')`. -/
theorem c3_compose_append_or_error (a b : QS) :
    (∀ l, dlookup a.query "$or" = some (DVal.arr l) →
        qsAdd a b = Except.ok
          { a with query :=
              dinsert a.query "$or" (DVal.arr (l ++ [DVal.doc b.query])) })
    ∧ (hasKeyD a.query "$or" = false →
        ∀ l, dlookup a.query "$and" = some (DVal.arr l) →
        qsAdd a b = Except.ok
          { a with query :=
              dinsert a.query "$and" (DVal.arr (l ++ [DVal.doc b.query])) })
    ∧ (hasKeyD a.query "$or" = false → hasKeyD a.query "$and" = false →
        qsAdd a b =
          Except.error (PyErr.valueError ("top level must be $and or $or"))) := by
  refine ⟨?_, ?_, ?_⟩
  · intro l h
    have hk : hasKeyD a.query "$or" = true := by simp [hasKeyD, h]
    simp [qsAdd, hk, h]
  · intro h1 l h
    have hk2 : hasKeyD a.query "$and" = true := by simp [hasKeyD, h]
    simp [qsAdd, h1, hk2, h]
  · intro h1 h2
    simp [qsAdd, h1, h2]

theorem c3_witness :
    qsAdd ⟨"person", [("$or", DVal.arr [])], []⟩
        ⟨"person", [("age", DVal.int 21)], []⟩ =
      Except.ok
        ⟨"person", [("$or", DVal.arr [DVal.doc [("age", DVal.int 21)]])], []⟩
    ∧ qsAdd ⟨"person", [("$and", DVal.arr [])], []⟩
        ⟨"person", [("age", DVal.int 21)], []⟩ =
      Except.ok
        ⟨"person", [("$and", DVal.arr [DVal.doc [("age", DVal.int 21)]])], []⟩
    ∧ qsAdd ⟨"person", [("age", DVal.int 18)], []⟩
        ⟨"person", [("age", DVal.int 21)], []⟩ =
      Except.error (PyErr.valueError ("top level must be $and or $or")) :=
  ⟨(c3_compose_append_or_error ⟨"person", [("$or", DVal.arr [])], []⟩
      ⟨"person", [("age", DVal.int 21)], []⟩).1 [] rfl,
   (c3_compose_append_or_error ⟨"person", [("$and", DVal.arr [])], []⟩
      ⟨"person", [("age", DVal.int 21)], []⟩).2.1 rfl [] rfl,
   (c3_compose_append_or_error ⟨"person", [("age", DVal.int 18)], []⟩
      ⟨"person", [("age", DVal.int 21)], []⟩).2.2 rfl rfl⟩

/-- C4 counterexample: the claim says `get_one` raises `ResultError`
whenever zero documents match, but on an empty result list the source
evaluates `results[0]`, which raises `IndexError`, a different
exception. -/
theorem c4_counterexample :
    getOne [] = Except.error PyErr.indexError ∧
      (Except.error PyErr.indexError : Except PyErr DInst) ≠
        Except.error PyErr.dongoResultError := by
  refine ⟨rfl, ?_⟩
  intro h
  injection h with h'
  exact PyErr.noConfusion h'

/-- C4 (amended): `first_or_die` raises `DongoResultError` exactly when
the driver lookup yields no document or an empty (falsy) document, and
otherwise returns the wrapped instance; `get_one` raises
`DongoResultError` when more than one document matches, raises
`IndexError` (not `DongoResultError`) when zero match, and returns the
single instance when exactly one matches. -/
theorem c4_amended_result_errors (r : Option Doc) (results : List Doc) :
    ((qsFirstOrDie r = Except.error PyErr.dongoResultError) ↔
        (r = none ∨ r = some []))
    ∧ (∀ p rest, r = some (p :: rest) →
        qsFirstOrDie r = Except.ok ⟨p :: rest⟩)
    ∧ (results.length > 1 →
        getOne results = Except.error PyErr.dongoResultError)
    ∧ (results = [] → getOne results = Except.error PyErr.indexError)
    ∧ (∀ d, results = [d] → getOne results = Except.ok ⟨d⟩) := by
  refine ⟨?_, ?_, ?_, ?_, ?_⟩
  · cases r with
    | none => simp [qsFirstOrDie, qsFirst]
    | some d =>
        cases d with
        | nil => simp [qsFirstOrDie, qsFirst]
        | cons p rest => simp [qsFirstOrDie, qsFirst]
  · intro p rest h
    subst h
    simp [qsFirstOrDie, qsFirst]
  · intro h
    simp only [getOne]
    rw [if_pos h]
  · intro h
    subst h
    rfl
  · intro d h
    subst h
    rfl

theorem c4_witness :
    qsFirstOrDie none = Except.error PyErr.dongoResultError
    ∧ qsFirstOrDie (some [("age", DVal.int 30)]) =
        Except.ok ⟨[("age", DVal.int 30)]⟩
    ∧ getOne [[("a", DVal.int 1)], [("a", DVal.int 2)]] =
        Except.error PyErr.dongoResultError
    ∧ getOne [[("b", DVal.int 3)]] = Except.ok ⟨[("b", DVal.int 3)]⟩ :=
  ⟨((c4_amended_result_errors none []).1).mpr (Or.inl rfl),
   (c4_amended_result_errors (some [("age", DVal.int 30)]) []).2.1 _ _ rfl,
   (c4_amended_result_errors none
      [[("a", DVal.int 1)], [("a", DVal.int 2)]]).2.2.1 (by decide),
   (c4_amended_result_errors none [[("b", DVal.int 3)]]).2.2.2.2 _ rfl⟩

theorem instToQuery_of_no_ids (data : Doc) (h1 : hasKeyD data "_id" = false)
    (h2 : hasKeyD data "_uuid" = false) :
    instToQuery data = Except.error PyErr.dongoResultError := by
  unfold hasKeyD at h1 h2
  cases hid : dlookup data "_id" with
  | some v => rw [hid] at h1; simp at h1
  | none =>
      cases huu : dlookup data "_uuid" with
      | some v => rw [huu] at h2; simp at h2
      | none => simp [instToQuery, hid, huu]

theorem instToQuery_of_id (data : Doc) (v : DVal)
    (h : dlookup data "_id" = some v) :
    instToQuery data = Except.ok [("_id", v)] := by
  simp [instToQuery, h]

theorem instToQuery_of_uuid (data : Doc) (v : DVal)
    (h1 : hasKeyD data "_id" = false) (h : dlookup data "_uuid" = some v) :
    instToQuery data = Except.ok [("_uuid", v)] := by
  unfold hasKeyD at h1
  cases hid : dlookup data "_id" with
  | some w => rw [hid] at h1; simp at h1
  | none => simp [instToQuery, hid, h]

/-- C5: for a batch and an entity whose data has neither `_id` nor
`_uuid`, `update_one`, `inc_one` and `replace_one` raise
`DongoResultError` (the identity error) and leave the pending op list
(and the entity data) unchanged; when the entity has `_id` the appended
operation's selector is `{'_id': ...}`, and otherwise (with `_uuid`
present) it is `{'_uuid': ...}`. -/
theorem c5_identity_error_and_selector (ops : List BulkOp)
    (data kwargs : Doc) :
    (hasKeyD data "_id" = false → hasKeyD data "_uuid" = false →
        bulkUpdateOne ops data kwargs =
          ((ops, data), Except.error PyErr.dongoResultError)
        ∧ bulkIncOne ops data kwargs =
          ((ops, data), Except.error PyErr.dongoResultError)
        ∧ bulkReplaceOne ops data kwargs =
          ((ops, data), Except.error PyErr.dongoResultError))
    ∧ (∀ v, dlookup data "_id" = some v →
        bulkUpdateOne ops data kwargs =
          ((ops ++ [BulkOp.updateOne [("_id", v)] [("$set", DVal.doc kwargs)] false],
            data),
           Except.ok (BulkOp.updateOne [("_id", v)] [("$set", DVal.doc kwargs)] false))
        ∧ bulkIncOne ops data kwargs =
          ((ops ++ [BulkOp.updateOne [("_id", v)] [("$inc", DVal.doc kwargs)] false],
            data),
           Except.ok (BulkOp.updateOne [("_id", v)] [("$inc", DVal.doc kwargs)] false))
        ∧ bulkReplaceOne ops data kwargs =
          ((ops ++ [BulkOp.replaceOne [("_id", v)] kwargs false], data),
           Except.ok (BulkOp.replaceOne [("_id", v)] kwargs false)))
    ∧ (hasKeyD data "_id" = false → ∀ v, dlookup data "_uuid" = some v →
        bulkUpdateOne ops data kwargs =
          ((ops ++ [BulkOp.updateOne [("_uuid", v)] [("$set", DVal.doc kwargs)] false],
            data),
           Except.ok (BulkOp.updateOne [("_uuid", v)] [("$set", DVal.doc kwargs)] false))
        ∧ bulkIncOne ops data kwargs =
          ((ops ++ [BulkOp.updateOne [("_uuid", v)] [("$inc", DVal.doc kwargs)] false],
            data),
           Except.ok (BulkOp.updateOne [("_uuid", v)] [("$inc", DVal.doc kwargs)] false))
        ∧ bulkReplaceOne ops data kwargs =
          ((ops ++ [BulkOp.replaceOne [("_uuid", v)] kwargs false], data),
           Except.ok (BulkOp.replaceOne [("_uuid", v)] kwargs false))) := by
  refine ⟨?_, ?_, ?_⟩
  · intro h1 h2
    have hq := instToQuery_of_no_ids data h1 h2
    exact ⟨by simp [bulkUpdateOne, hq], by simp [bulkIncOne, hq],
           by simp [bulkReplaceOne, hq]⟩
  · intro v h
    have hq := instToQuery_of_id data v h
    exact ⟨by simp [bulkUpdateOne, hq], by simp [bulkIncOne, hq],
           by simp [bulkReplaceOne, hq]⟩
  · intro h1 v h
    have hq := instToQuery_of_uuid data v h1 h
    exact ⟨by simp [bulkUpdateOne, hq], by simp [bulkIncOne, hq],
           by simp [bulkReplaceOne, hq]⟩

theorem c5_witness :
    bulkUpdateOne [] [] [("age", DVal.int 1)] =
      (([], []), Except.error PyErr.dongoResultError)
    ∧ bulkIncOne [] [("_id", DVal.int 7)] [("age", DVal.int 1)] =
      (([BulkOp.updateOne [("_id", DVal.int 7)]
           [("$inc", DVal.doc [("age", DVal.int 1)])] false],
        [("_id", DVal.int 7)]),
       Except.ok (BulkOp.updateOne [("_id", DVal.int 7)]
         [("$inc", DVal.doc [("age", DVal.int 1)])] false))
    ∧ bulkReplaceOne [] [("_uuid", DVal.str "u1")] [("age", DVal.int 1)] =
      (([BulkOp.replaceOne [("_uuid", DVal.str "u1")]
           [("age", DVal.int 1)] false],
        [("_uuid", DVal.str "u1")]),
       Except.ok (BulkOp.replaceOne [("_uuid", DVal.str "u1")]
         [("age", DVal.int 1)] false)) :=
  ⟨((c5_identity_error_and_selector [] [] [("age", DVal.int 1)]).1
      rfl rfl).1,
   ((c5_identity_error_and_selector [] [("_id", DVal.int 7)]
      [("age", DVal.int 1)]).2.1 (DVal.int 7) rfl).2.1,
   ((c5_identity_error_and_selector [] [("_uuid", DVal.str "u1")]
      [("age", DVal.int 1)]).2.2 rfl (DVal.str "u1") rfl).2.2⟩

/-- C9: for a persisted entity (the selector lookup succeeds),
`DongoBulk.inc_one` appends exactly one increment operation to the
pending list and leaves the entity's in-memory data completely
unchanged, whereas `DongoLazyUpdater.__setitem__` appends its update
operation and immediately mirrors the assigned value into the entity's
in-memory data, so a local read of the assigned path returns it. -/
theorem c9_inc_no_mirror_setitem_mirrors (ops : List BulkOp)
    (data kwargs : Doc) (q : Doc) (hq : instToQuery data = Except.ok q) :
    bulkIncOne ops data kwargs =
      ((ops ++ [BulkOp.updateOne q [("$inc", DVal.doc kwargs)] false], data),
       Except.ok (BulkOp.updateOne q [("$inc", DVal.doc kwargs)] false))
    ∧ (∀ (attr : String) (val : DVal) (d' : Doc),
        setNested data attr val = Except.ok d' →
        lazySetItem ops data attr val =
          ((ops ++ [BulkOp.updateOne q [("$set", DVal.doc [(attr, val)])] false],
            d'),
           Except.ok (BulkOp.updateOne q [("$set", DVal.doc [(attr, val)])] false))
        ∧ getItem d' attr = Except.ok val) :=
  ⟨by simp [bulkIncOne, hq],
   fun attr val d' hset =>
     ⟨by simp [lazySetItem, hq, hset],
      setNested_getItem data attr val d' hset⟩⟩

theorem c9_witness :
    bulkIncOne [] [("_id", DVal.int 1), ("age", DVal.int 30)]
        [("age", DVal.int 1)] =
      (([BulkOp.updateOne [("_id", DVal.int 1)]
           [("$inc", DVal.doc [("age", DVal.int 1)])] false],
        [("_id", DVal.int 1), ("age", DVal.int 30)]),
       Except.ok (BulkOp.updateOne [("_id", DVal.int 1)]
         [("$inc", DVal.doc [("age", DVal.int 1)])] false))
    ∧ lazySetItem [] [("_id", DVal.int 1), ("age", DVal.int 30)]
        "name" (DVal.str "joe") =
      (([BulkOp.updateOne [("_id", DVal.int 1)]
           [("$set", DVal.doc [("name", DVal.str "joe")])] false],
        [("_id", DVal.int 1), ("age", DVal.int 30), ("name", DVal.str "joe")]),
       Except.ok (BulkOp.updateOne [("_id", DVal.int 1)]
         [("$set", DVal.doc [("name", DVal.str "joe")])] false))
    ∧ getItem
        [("_id", DVal.int 1), ("age", DVal.int 30), ("name", DVal.str "joe")]
        "name" = Except.ok (DVal.str "joe") :=
  ⟨(c9_inc_no_mirror_setitem_mirrors []
      [("_id", DVal.int 1), ("age", DVal.int 30)] [("age", DVal.int 1)]
      [("_id", DVal.int 1)] rfl).1,
   ((c9_inc_no_mirror_setitem_mirrors []
      [("_id", DVal.int 1), ("age", DVal.int 30)] [("age", DVal.int 1)]
      [("_id", DVal.int 1)] rfl).2 "name" (DVal.str "joe")
      [("_id", DVal.int 1), ("age", DVal.int 30), ("name", DVal.str "joe")]
      rfl).1,
   ((c9_inc_no_mirror_setitem_mirrors []
      [("_id", DVal.int 1), ("age", DVal.int 30)] [("age", DVal.int 1)]
      [("_id", DVal.int 1)] rfl).2 "name" (DVal.str "joe")
      [("_id", DVal.int 1), ("age", DVal.int 30), ("name", DVal.str "joe")]
      rfl).2⟩

/-- C2 (code bug, evaluated at the failing input): adding two
single-entity lazy updaters executes `bulk = DongoBulk()`, but
`DongoBulk.__init__` requires the positional argument `klass`, so the
merge raises `TypeError` instead of producing a merged batch — even
though the class's own docstring advertises `bulk = lazy1 + lazy2` and
`(lazy1 + lazy2).save()`. -/
theorem c2_lazy_lazy_typeerror :
    wAdd
      (WriteObj.lazy [("_id", DVal.int 1)]
        [BulkOp.updateOne [("_id", DVal.int 1)]
          [("$set", DVal.doc [("name", DVal.str "joejoe")])] false])
      (WriteObj.lazy [("_id", DVal.int 2)]
        [BulkOp.updateOne [("_id", DVal.int 2)]
          [("$set", DVal.doc [("age", DVal.int 50)])] false]) =
    Except.error PyErr.typeError := rfl

theorem dinsert_of_fresh_key (d : Doc) (k : String) (v : DVal) :
    ∀ (_ : ∀ p ∈ d, p.1 ≠ k), dinsert d k v = d ++ [(k, v)] := by
  induction d with
  | nil => intro _; simp [dinsert]
  | cons kv rest ih =>
      intro h
      obtain ⟨k0, v0⟩ := kv
      have hk0 : k0 ≠ k := h (k0, v0) (by simp)
      simp [dinsert, hk0]
      exact ih (fun p hp => h p (by simp [hp]))

theorem foldl_dinsert_append (kwargs : Doc) :
    ∀ (acc : Doc), (∀ p ∈ kwargs, ∀ q ∈ acc, q.1 ≠ p.1) →
      (kwargs.map Prod.fst).Nodup →
      List.foldl (fun dct kv => dinsert dct kv.1 kv.2) acc kwargs =
        acc ++ kwargs := by
  induction kwargs with
  | nil => intro acc _ _; simp
  | cons kv rest ih =>
      obtain ⟨k, v⟩ := kv
      intro acc hdisj hnodup
      simp only [List.foldl_cons]
      have hins : dinsert acc k v = acc ++ [(k, v)] :=
        dinsert_of_fresh_key acc k v
          (fun q hq => (hdisj (k, v) (by simp) q hq))
      simp only [List.map_cons, List.nodup_cons] at hnodup
      obtain ⟨hknotin, hnodup'⟩ := hnodup
      rw [show dinsert acc k v = acc ++ [(k, v)] from hins] at *
      rw [ih (acc ++ [(k, v)]) ?_ hnodup']
      · simp
      · intro p hp q hq
        rcases List.mem_append.mp hq with hq1 | hq2
        · exact hdisj p (by simp [hp]) q hq1
        · have hqkv : q = (k, v) := by simpa using hq2
          subst hqkv
          intro heq
          apply hknotin
          have hmem : p.1 ∈ List.map Prod.fst rest :=
            List.mem_map_of_mem Prod.fst hp
          simpa [← heq] using hmem

/-- C10 (implicit): `_translate_dunder_dict` returns a dictionary with
exactly the same keys and values as its input — the intended
double-underscore-to-dot translation has no effect, because the result
of `key.replace('__', '.')` is discarded — and consequently
`DongoCollection.set` with a key such as `a__b` writes the literal
top-level field `a__b` into the in-memory data (and into the `$set`
document sent to the driver) rather than the nested path `a.b`. -/
theorem c10_translate_dunder_noop :
    (∀ kwargs : Doc, (kwargs.map Prod.fst).Nodup →
        translate_dunder_dict kwargs = kwargs)
    ∧ (∀ (data : Doc) (k : String) (v idv : DVal),
        hasDot k.toList = false → k ≠ "_id" →
        dlookup data "_id" = some idv →
        collSet data [(k, v)] =
          (dinsert data k v,
           Except.ok ([("_id", idv)], [("$set", DVal.doc [(k, v)])]))) := by
  have htr : ∀ kwargs : Doc, (kwargs.map Prod.fst).Nodup →
      translate_dunder_dict kwargs = kwargs := by
    intro kwargs h
    show List.foldl (fun dct kv => dinsert dct kv.1 kv.2) [] kwargs = kwargs
    rw [foldl_dinsert_append kwargs [] (by simp) h]
    simp
  refine ⟨htr, ?_⟩
  intro data k v idv hdotk hne hid
  have h1 : translate_dunder_dict [(k, v)] = [(k, v)] := htr _ (by simp)
  have hdotk' : hasDot k.data = false := hdotk
  have hdotid : hasDot ("_id" : String).data = false := rfl
  have hlook : dlookup (dinsert data k v) "_id" = some idv := by
    rw [dlookup_dinsert_ne data k v "_id" hne]
    exact hid
  simp [collSet, h1, foldSetNested, setNested, hdotk', getItem, hdotid, hlook]

theorem c10_witness :
    translate_dunder_dict [("a__b", DVal.int 1), ("c", DVal.int 2)] =
      [("a__b", DVal.int 1), ("c", DVal.int 2)]
    ∧ collSet [("_id", DVal.int 9)] [("a__b", DVal.int 1)] =
      ([("_id", DVal.int 9), ("a__b", DVal.int 1)],
       Except.ok ([("_id", DVal.int 9)],
         [("$set", DVal.doc [("a__b", DVal.int 1)])])) :=
  ⟨c10_translate_dunder_noop.1 [("a__b", DVal.int 1), ("c", DVal.int 2)]
     (by decide),
   c10_translate_dunder_noop.2 [("_id", DVal.int 9)] "a__b" (DVal.int 1)
     (DVal.int 9) rfl (by decide) rfl⟩

/-- C6: `deref_many` (spec-modelled, see `derefMany`) fails with
`DongoDerefError` if any reference lacks an id, if the references span
more than one distinct collection name, or if the (single) referenced
collection is not registered; on a single registered collection with
all ids present it returns a queryable result set over that collection
whose query is one batched `$in` lookup by the common identifier
kind. -/
theorem c6_deref_many_checks (registry : List String) (refs : List DRef) :
    ((∃ r ∈ refs, r.dref = none) →
        derefMany registry refs = Except.error PyErr.dongoDerefError)
    ∧ (∀ r1 ∈ refs, ∀ r2 ∈ refs, r1.coll ≠ r2.coll →
        derefMany registry refs = Except.error PyErr.dongoDerefError)
    ∧ (∀ r0 rest, refs = r0 :: rest → registry.contains r0.coll = false →
        derefMany registry refs = Except.error PyErr.dongoDerefError)
    ∧ (∀ r0 rest i0, refs = r0 :: rest → r0.dref = some i0 →
        (∀ r ∈ refs, r.coll = r0.coll) →
        registry.contains r0.coll = true →
        (∀ r ∈ refs, r.dref.isSome = true) →
        derefMany registry refs = Except.ok
          { klass := r0.coll,
            query := [(refIdField i0,
              DVal.doc [("$in", DVal.arr
                ((refs.filterMap (fun r => r.dref)).map refIdVal))])],
            opts := [] }) := by
  refine ⟨?_, ?_, ?_, ?_⟩
  · rintro ⟨r, hr, hdref⟩
    have hany : refs.any (fun r => r.dref.isNone) = true :=
      List.any_eq_true.mpr ⟨r, hr, by simp [hdref]⟩
    simp [derefMany, hany]
  · intro r1 h1 r2 h2 hne
    cases hany : refs.any (fun r => r.dref.isNone) with
    | true => simp [derefMany, hany]
    | false =>
        cases hrefs : refs with
        | nil => rw [hrefs] at h1; exact absurd h1 (List.not_mem_nil r1)
        | cons r0 rest =>
            subst hrefs
            cases hall : rest.all (fun r => r.coll == r0.coll) with
            | true =>
                exfalso
                have hcol : ∀ r ∈ r0 :: rest, r.coll = r0.coll := by
                  intro r hrmem
                  rcases List.mem_cons.mp hrmem with h | h
                  · rw [h]
                  · exact beq_iff_eq.mp (List.all_eq_true.mp hall r h)
                exact hne (by rw [hcol r1 h1, hcol r2 h2])
            | false => simp [derefMany, hany, hall]
  · intro r0 rest hrefs hreg
    subst hrefs
    cases hany : (r0 :: rest).any (fun r => r.dref.isNone) with
    | true => simp [derefMany, hany]
    | false =>
        cases hall : rest.all (fun r => r.coll == r0.coll) with
        | true =>
            have hreg' : r0.coll ∉ registry := by simpa using hreg
            simp [derefMany, hany, hall, hreg']
        | false => simp [derefMany, hany, hall]
  · intro r0 rest i0 hrefs hi0 hcols hreg hids
    subst hrefs
    have hany : (r0 :: rest).any (fun r => r.dref.isNone) = false := by
      rw [List.any_eq_false]
      intro r hr
      simp [Option.isNone_iff_eq_none]
      exact Option.isSome_iff_ne_none.mp (hids r hr)
    have hall : rest.all (fun r => r.coll == r0.coll) = true := by
      rw [List.all_eq_true]
      intro r hr
      exact beq_iff_eq.mpr (hcols r (by simp [hr]))
    have hreg' : r0.coll ∈ registry := by simpa using hreg
    simp [derefMany, hany, hall, hreg', List.filterMap_cons, hi0]

theorem c6_witness :
    derefMany ["persons"]
      [⟨some (RefId.uuid "u1"), "persons"⟩,
       ⟨some (RefId.uuid "u2"), "persons"⟩] =
      Except.ok
        { klass := "persons",
          query := [("_uuid",
            DVal.doc [("$in",
              DVal.arr [DVal.str "u1", DVal.str "u2"])])],
          opts := [] }
    ∧ derefMany ["persons"]
      [⟨some (RefId.uuid "u1"), "persons"⟩,
       ⟨some (RefId.uuid "u2"), "cats"⟩] =
      Except.error PyErr.dongoDerefError
    ∧ derefMany ["persons"] [⟨none, "persons"⟩] =
      Except.error PyErr.dongoDerefError
    ∧ derefMany [] [⟨some (RefId.oid "i1"), "persons"⟩] =
      Except.error PyErr.dongoDerefError :=
  ⟨(c6_deref_many_checks ["persons"]
      [⟨some (RefId.uuid "u1"), "persons"⟩,
       ⟨some (RefId.uuid "u2"), "persons"⟩]).2.2.2
      ⟨some (RefId.uuid "u1"), "persons"⟩
      [⟨some (RefId.uuid "u2"), "persons"⟩] (RefId.uuid "u1") rfl rfl
      (by intro r hr; rcases List.mem_cons.mp hr with h | h
          · rw [h]
          · simp at h; rw [h]) rfl
      (by intro r hr; rcases List.mem_cons.mp hr with h | h
          · rw [h]; rfl
          · simp at h; rw [h]; rfl),
   (c6_deref_many_checks ["persons"]
      [⟨some (RefId.uuid "u1"), "persons"⟩,
       ⟨some (RefId.uuid "u2"), "cats"⟩]).2.1
      ⟨some (RefId.uuid "u1"), "persons"⟩ (by simp)
      ⟨some (RefId.uuid "u2"), "cats"⟩ (by simp) (by decide),
   (c6_deref_many_checks ["persons"] [⟨none, "persons"⟩]).1
      ⟨⟨none, "persons"⟩, by simp, rfl⟩,
   (c6_deref_many_checks [] [⟨some (RefId.oid "i1"), "persons"⟩]).2.2.1
      ⟨some (RefId.oid "i1"), "persons"⟩ [] rfl rfl⟩

theorem isSuffixL_iff (s l : List Char) :
    isSuffixL s l = true ↔ ∃ p, l = p ++ s := by
  unfold isSuffixL
  rw [beq_iff_eq]
  constructor
  · intro h
    refine ⟨l.take (l.length - s.length), ?_⟩
    conv_lhs => rw [← List.take_append_drop (l.length - s.length) l]
    rw [← h]
  · rintro ⟨p, rfl⟩
    have hlen : (p ++ s).length - s.length = p.length := by
      simp [List.length_append]
    rw [hlen, List.drop_left]

theorem suffix_of_both_suffixes (l p1 s1 p2 s2 : List Char)
    (h1 : l = p1 ++ s1) (h2 : l = p2 ++ s2)
    (hle : s1.length ≤ s2.length) : ∃ r, s2 = r ++ s1 := by
  have hd1 : l.drop p1.length = s1 := by rw [h1]; exact List.drop_left p1 s1
  have hd2 : l.drop p2.length = s2 := by rw [h2]; exact List.drop_left p2 s2
  have hlen1 : l.length = p1.length + s1.length := by
    rw [h1]; simp [List.length_append]
  have hlen2 : l.length = p2.length + s2.length := by
    rw [h2]; simp [List.length_append]
  refine ⟨s2.take (p1.length - p2.length), ?_⟩
  have hkey : s2.drop (p1.length - p2.length) = s1 := by
    rw [← hd2, List.drop_drop]
    rw [show p2.length + (p1.length - p2.length) = p1.length by omega]
    exact hd1
  conv_lhs => rw [← List.take_append_drop (p1.length - p2.length) s2]
  rw [hkey]

theorem ops_suffix_unique :
    ∀ a ∈ OPS, ∀ b ∈ OPS,
      isSuffixL (ddChars ++ a.toList) (ddChars ++ b.toList) = true →
        a = b := by
  decide

theorem hasDD_of_dd_run (a b : List Char) :
    hasDD (a ++ '_' :: '_' :: b) = true := by
  induction a with
  | nil => rfl
  | cons c a' ih => simp [hasDD, ih]

theorem getLast?_ne_newline (t : List Char) (hnl : ('\n') ∉ t) :
    ¬ (t.getLast? = some '\n') := by
  intro heq
  exact hnl (List.mem_of_mem_getLast? (by rw [heq]; rfl))

theorem reCompMatch_some (t pfxl : List Char) (op : String) (hop : op ∈ OPS)
    (ht : t = pfxl ++ ddChars ++ op.toList) (hnl : ('\n') ∉ t) :
    reCompMatch t = some (pfxl, op) := by
  have hlast := getLast?_ne_newline t hnl
  simp only [reCompMatch]
  rw [if_neg hlast]
  have hteq : t = pfxl ++ (ddChars ++ op.toList) := by
    rw [ht, List.append_assoc]
  have hsuf : isSuffixL (ddChars ++ op.toList) t = true :=
    (isSuffixL_iff _ _).mpr ⟨pfxl, hteq⟩
  cases hfind : OPS.find? (fun o => isSuffixL (ddChars ++ o.toList) t) with
  | none =>
      exfalso
      exact (List.find?_eq_none.mp hfind op hop) hsuf
  | some op' =>
      have hp' : isSuffixL (ddChars ++ op'.toList) t = true := by
        have := List.find?_some hfind
        simpa using this
      have hop' : op' ∈ OPS := List.mem_of_find?_eq_some hfind
      obtain ⟨q, hq⟩ := (isSuffixL_iff _ _).mp hp'
      have hoo : op' = op := by
        rcases Nat.le_total (ddChars ++ op.toList).length
            (ddChars ++ op'.toList).length with hle | hle
        · obtain ⟨r, hr⟩ := suffix_of_both_suffixes t pfxl
            (ddChars ++ op.toList) q (ddChars ++ op'.toList) hteq hq hle
          exact (ops_suffix_unique op hop op'
            hop' ((isSuffixL_iff _ _).mpr ⟨r, hr⟩)).symm
        · obtain ⟨r, hr⟩ := suffix_of_both_suffixes t q
            (ddChars ++ op'.toList) pfxl (ddChars ++ op.toList) hq hteq hle
          exact ops_suffix_unique op' hop' op hop
            ((isSuffixL_iff _ _).mpr ⟨r, hr⟩)
      subst hoo
      have htake : t.take (t.length - (ddChars ++ op'.toList).length) = pfxl := by
        rw [hteq]
        rw [show (pfxl ++ (ddChars ++ op'.toList)).length -
              (ddChars ++ op'.toList).length = pfxl.length by
            simp [List.length_append]]
        exact List.take_left pfxl (ddChars ++ op'.toList)
      have hc : pfxl.contains '\n' = false := by
        have hmem : ('\n') ∉ pfxl := fun hmem =>
          hnl (by rw [hteq]; exact List.mem_append.mpr (Or.inl hmem))
        simpa using hmem
      simp only [htake, hc]
      simp

theorem reCompMatch_none (t : List Char) (hnl : ('\n') ∉ t)
    (hns : ∀ op ∈ OPS, isSuffixL (ddChars ++ op.toList) t = false) :
    reCompMatch t = none := by
  have hlast := getLast?_ne_newline t hnl
  simp only [reCompMatch]
  rw [if_neg hlast]
  have hfind : OPS.find? (fun o => isSuffixL (ddChars ++ o.toList) t) = none :=
    List.find?_eq_none.mpr (fun o ho => by simpa using hns o ho)
  rw [hfind]

/-- C1: for every keyword term without a newline character (the domain
of Python keyword-argument terms) and every value: a term containing no
`"__"` separator is returned unchanged as an exact-equality predicate
`{term: value}`; a term ending in `"__"` followed by one of the ten
operators of `OPS` yields `{prefix-with-separators-dotted:
{"$op": value}}`; and a term containing `"__"` but ending in no
recognized operator suffix yields
`{whole-term-with-separators-dotted: value}` (implicit equality). -/
theorem c1_predicate_translation (term : String) (val : DVal) :
    (hasDD term.toList = false →
        build_query_from_term term val = (term, val))
    ∧ (∀ (p : List Char) (op : String), op ∈ OPS →
        term.toList = p ++ ddChars ++ op.toList → ('\n') ∉ term.toList →
        build_query_from_term term val =
          (String.mk (replaceDD p), DVal.doc [("$" ++ op, val)]))
    ∧ ((∀ op ∈ OPS, isSuffixL (ddChars ++ op.toList) term.toList = false) →
        hasDD term.toList = true → ('\n') ∉ term.toList →
        build_query_from_term term val =
          (String.mk (replaceDD term.toList), val)) := by
  refine ⟨?_, ?_, ?_⟩
  · intro h
    have h' : hasDD term.data = false := h
    simp [build_query_from_term, h']
  · intro p op hop ht hnl
    have hdd : hasDD term.toList = true := by
      rw [ht, List.append_assoc]
      exact hasDD_of_dd_run p op.toList
    have hdd' : hasDD term.data = true := hdd
    simp only [build_query_from_term]
    rw [if_neg (by simp [hdd'])]
    rw [reCompMatch_some term.toList p op hop ht hnl]
  · intro hns hdd hnl
    have hdd' : hasDD term.data = true := hdd
    simp only [build_query_from_term]
    rw [if_neg (by simp [hdd'])]
    rw [reCompMatch_none term.toList hnl hns]

theorem c1_witness :
    build_query_from_term "age" (DVal.int 5) = ("age", DVal.int 5)
    ∧ build_query_from_term "accounts__creditcard__gt" (DVal.int 10000) =
        ("accounts.creditcard", DVal.doc [("$gt", DVal.int 10000)])
    ∧ build_query_from_term "a__b" (DVal.int 1) = ("a.b", DVal.int 1) :=
  ⟨(c1_predicate_translation "age" (DVal.int 5)).1 rfl,
   (c1_predicate_translation "accounts__creditcard__gt"
      (DVal.int 10000)).2.1 ("accounts__creditcard".toList) "gt"
      (by decide) (by decide) (by decide),
   (c1_predicate_translation "a__b" (DVal.int 1)).2.2
      (by decide) rfl (by decide)⟩
